import Mathlib

/-!
Verification development for the `Forwarder` class of
`src/android/pylib/forwarder.py` (device-to-host reverse port forwarding).

The Python constructor is embedded as a pure function from an explicit
environment (the text emitted by the spawned device-forwarder and
host-forwarder processes, and the device-shell port-owner query) to a trace
of observable side effects together with either a typed error or the
constructed `Forwarder` state.  Process output is modelled as a list of
lines followed by either end-of-stream (`eof = true`) or silence until the
timeout (`eof = false`), matching how `pexpect.expect` resolves to one of
success pattern / failure pattern / EOF / TIMEOUT.
-/

/-- Value of a list of decimal digit characters, most significant first. -/
def digitsToNat (ds : List Char) : Nat :=
  ds.foldl (fun n c => 10 * n + (c.toNat - 48)) 0

/-- Remainder of the input after the first occurrence of the literal `lit`,
or `none` when `lit` does not occur. -/
def afterFirst (lit : List Char) : List Char → Option (List Char)
  | [] => if lit.isEmpty then some [] else none
  | c :: cs =>
    if lit.isPrefixOf (c :: cs) then some ((c :: cs).drop lit.length)
    else afterFirst lit cs

/-- Remainder of the input after the last occurrence of the literal `lit`,
or `none` when `lit` does not occur. -/
def afterLast (lit : List Char) : List Char → Option (List Char)
  | [] => if lit.isEmpty then some [] else none
  | c :: cs =>
    match afterLast lit cs with
    | some r => some r
    | none =>
      if lit.isPrefixOf (c :: cs) then some ((c :: cs).drop lit.length)
      else none

/-- Maximal leading run of decimal digits, as a number plus the rest; `none`
when the input does not start with a digit (the regex fragment matching one
or more digits). -/
def parseDigits (cs : List Char) : Option (Nat × List Char) :=
  let ds := cs.takeWhile Char.isDigit
  if ds.isEmpty then none else some (digitsToNat ds, cs.dropWhile Char.isDigit)

/-- Attempt, at the current position only, the pattern
`pre (digits) mid (digits) post` and return the two captured numbers. -/
def twoPortsAt (pre mid post cs : List Char) : Option (Nat × Nat) :=
  if pre.isPrefixOf cs then
    match parseDigits (cs.drop pre.length) with
    | some (d1, r1) =>
      if mid.isPrefixOf r1 then
        match parseDigits (r1.drop mid.length) with
        | some (d2, r2) => if post.isPrefixOf r2 then some (d1, d2) else none
        | none => none
      else none
    | none => none
  else none

/-- Leftmost match of the pattern `pre (digits) mid (digits) post` anywhere
in the input. -/
def twoPortsSearch (pre mid post : List Char) : List Char → Option (Nat × Nat)
  | [] => none
  | c :: cs =>
    match twoPortsAt pre mid post (c :: cs) with
    | some r => some r
    | none => twoPortsSearch pre mid post cs

/-- Device-forwarder success pattern `Starting Device Forwarder.`: the
literal text followed by one arbitrary character (the regex dot). -/
def matchDeviceSuccess (line : String) : Bool :=
  match afterFirst ("Starting Device Forwarder").data line.data with
  | some rest => !rest.isEmpty
  | none => false

/-- Device-forwarder failure pattern `.*:ERROR:(.*)`: with both repetitions
greedy, the capture is everything after the last `:ERROR:` marker; `none`
when the marker does not occur in the line. -/
def matchDeviceFailure (line : String) : Option String :=
  (afterLast (":ERROR:").data line.data).map (fun r => String.mk r)

/-- Host-forwarder per-pair success pattern
`Forwarding device port (digits) to host (digits):`, returning
(device port, host port). -/
def matchHostSuccess (line : String) : Option (Nat × Nat) :=
  twoPortsSearch ("Forwarding device port ").data (" to host ").data
    (":").data line.data

/-- Host-forwarder per-pair failure pattern
`Couldn\x27t start forwarder server for port spec: (digits):(digits)`,
returning (device port, host port). -/
def matchHostFailure (line : String) : Option (Nat × Nat) :=
  twoPortsSearch ("Couldn\x27t start forwarder server for port spec: ").data
    (":").data [] line.data

/-- Outcome of the single `expect` on the device-forwarder process. -/
inductive DeviceOutcome where
  | started
  | failed (msg : String)
  | eof
  | timedOut
deriving DecidableEq

/-- Outcome of one `expect` on the host-forwarder process. -/
inductive HostOutcome where
  | ack (devicePort hostPort : Nat)
  | refused (devicePort hostPort : Nat)
  | eof
  | timedOut
deriving DecidableEq

/-- Resolve the device-forwarder `expect`: scan lines for the first one
matching the success or the failure pattern; when the lines run out, the
outcome is EOF if the stream closed and TIMEOUT otherwise. -/
def expectDevice : List String → Bool → DeviceOutcome
  | [], eofB => if eofB then DeviceOutcome.eof else DeviceOutcome.timedOut
  | l :: ls, eofB =>
    if matchDeviceSuccess l then DeviceOutcome.started
    else
      match matchDeviceFailure l with
      | some msg => DeviceOutcome.failed msg
      | none => expectDevice ls eofB

/-- Resolve one host-forwarder `expect`, consuming lines through the first
decisive one and returning the unconsumed remainder. -/
def expectHost : List String → Bool → HostOutcome × List String
  | [], eofB => (if eofB then HostOutcome.eof else HostOutcome.timedOut, [])
  | l :: ls, eofB =>
    match matchHostSuccess l with
    | some (dp, hp) => (HostOutcome.ack dp hp, ls)
    | none =>
      match matchHostFailure l with
      | some (dp, hp) => (HostOutcome.refused dp hp, ls)
      | none => expectHost ls eofB

/-- Environment a session runs against: the two process output streams
(each a list of lines plus whether the stream then closes) and the
device-shell port-owner query. -/
structure Env where
  deviceLines : List String
  deviceEof : Bool
  hostLines : List String
  hostEof : Bool
  portOwners : Nat → List (Nat × String)

/-- Observable side effects of the constructor and of `Close`, in program
order. -/
inductive Event where
  | allocatePort
  | pushDeviceForwarder
  | logForwardListInfo
  | queryPortOwners (devicePort : Nat)
  | logKillWarning (pid devicePort : Nat)
  | adbShellKill (pid : Nat)
  | logNotKillError (pid : Nat) (name : String) (devicePort : Nat)
  | killallHostForwarder
  | spawnAdbForward
  | spawnDeviceForwarder
  | logDeviceBeforeError
  | spawnHostForwarder
  | logForwardInfo (devicePort hostPort : Nat)
  | logHostBeforeError
  | closeHostProcess
  | closeDeviceProcess
  | closeAdbForwardProcess
deriving DecidableEq

/-- Typed rendering of the exceptions raised by `Forwarder.__init__`. -/
inductive FwdError where
  | deviceForwarderFailed (msg : String)
  | deviceForwarderEof
  | deviceForwarderTimedOut
  | hostForwardFailed (devicePort hostPort : Nat)
  | hostForwarderEof
  | hostForwarderTimedOut
deriving DecidableEq

/-- State of a constructed `Forwarder`: the `_host_to_device_port_map` dict
(as an association list with unique keys, in insertion order) and whether
each of the three process handles is still set (`True` = not `None`). -/
structure Forwarder where
  host_to_device_port_map : List (Nat × Nat)
  host_process : Bool
  device_process : Bool
  adb_forward_process : Bool
deriving DecidableEq

/-- Python dict read `m.get(k)`. -/
def dictGet : List (Nat × Nat) → Nat → Option Nat
  | [], _ => none
  | p :: m, k => if p.1 = k then some p.2 else dictGet m k

/-- Python dict write `m[k] = v`: overwrite the entry for `k` in place, or
append a new entry. -/
def dictInsert : List (Nat × Nat) → Nat → Nat → List (Nat × Nat)
  | [], k, v => [(k, v)]
  | p :: m, k, v => if p.1 = k then (k, v) :: m else p :: dictInsert m k v

/-- Embeds `Forwarder._KillForwardersUsingDevicePort`: query the processes
using the port; kill (with a warning log) each one named
`device_forwarder`, and log an error for each one named otherwise. -/
def killForwardersUsingDevicePort (env : Env) (device_port : Nat) :
    List Event :=
  Event.queryPortOwners device_port ::
    ((env.portOwners device_port).map (fun po =>
      if po.2 = "device_forwarder" then
        [Event.logKillWarning po.1 device_port, Event.adbShellKill po.1]
      else
        [Event.logNotKillError po.1 po.2 device_port])).flatten

/-- Embeds the per-pair `expect` loop of `Forwarder.__init__` over the
host-forwarder output: one `expect` per requested pair; a success
acknowledgement records a mapping entry, anything else closes all three
processes and raises. -/
def hostLoop : List (Nat × Nat) → List String → Bool → List (Nat × Nat) →
    List Event × Except FwdError (List (Nat × Nat))
  | [], _, _, m => ([], Except.ok m)
  | _ :: rest, lines, eofB, m =>
    match expectHost lines eofB with
    | (HostOutcome.ack dp hp, lines') =>
      let r := hostLoop rest lines' eofB (dictInsert m hp dp)
      (Event.logForwardInfo dp hp :: r.1, r.2)
    | (HostOutcome.refused dp hp, _) =>
      ([Event.closeHostProcess, Event.closeDeviceProcess,
        Event.closeAdbForwardProcess],
       Except.error (FwdError.hostForwardFailed dp hp))
    | (HostOutcome.eof, _) =>
      ([Event.logHostBeforeError, Event.closeHostProcess,
        Event.closeDeviceProcess, Event.closeAdbForwardProcess],
       Except.error FwdError.hostForwarderEof)
    | (HostOutcome.timedOut, _) =>
      ([Event.logHostBeforeError, Event.closeHostProcess,
        Event.closeDeviceProcess, Event.closeAdbForwardProcess],
       Except.error FwdError.hostForwarderTimedOut)

/-- Events of the best-effort port-reclaim pass: one
`_KillForwardersUsingDevicePort` call per requested pair whose device port
is not 0 (dynamic). -/
def reclaimEvents (env : Env) (port_pairs : List (Nat × Nat)) : List Event :=
  (port_pairs.map (fun p =>
    if p.1 ≠ 0 then killForwardersUsingDevicePort env p.1 else [])).flatten

/-- Events of `Forwarder.__init__` up to and including spawning the
device-forwarder, before any handshake output is read: allocate the control
port, push the device binary, log the pair list, reclaim conflicting device
ports, kill stale host forwarders by name, spawn the adb-forward tunnel,
spawn the device-forwarder. -/
def preEvents (env : Env) (port_pairs : List (Nat × Nat)) : List Event :=
  Event.allocatePort :: Event.pushDeviceForwarder ::
    Event.logForwardListInfo :: reclaimEvents env port_pairs ++
    [Event.killallHostForwarder, Event.spawnAdbForward,
     Event.spawnDeviceForwarder]

/-- Embeds `Forwarder.__init__`: run the pre-handshake steps, wait for the
device-forwarder handshake, then spawn the host-forwarder and run the
per-pair `expect` loop.  Returns the side-effect trace and either the
raised error or the constructed state (all three process handles set). -/
def forwarderInit (env : Env) (port_pairs : List (Nat × Nat)) :
    List Event × Except FwdError Forwarder :=
  let pre : List Event := preEvents env port_pairs
  match expectDevice env.deviceLines env.deviceEof with
  | DeviceOutcome.failed msg =>
    (pre ++ [Event.logDeviceBeforeError, Event.closeDeviceProcess,
             Event.closeAdbForwardProcess],
     Except.error (FwdError.deviceForwarderFailed msg))
  | DeviceOutcome.eof =>
    (pre ++ [Event.logDeviceBeforeError, Event.closeDeviceProcess,
             Event.closeAdbForwardProcess],
     Except.error FwdError.deviceForwarderEof)
  | DeviceOutcome.timedOut =>
    (pre ++ [Event.logDeviceBeforeError, Event.closeDeviceProcess,
             Event.closeAdbForwardProcess],
     Except.error FwdError.deviceForwarderTimedOut)
  | DeviceOutcome.started =>
    let r := hostLoop port_pairs env.hostLines env.hostEof []
    (pre ++ Event.spawnHostForwarder :: r.1,
     r.2.map (fun m =>
       { host_to_device_port_map := m
         host_process := true
         device_process := true
         adb_forward_process := true }))

/-- Embeds `Forwarder._CloseProcess`: close each process handle that is
still set, then clear all three; the port map is left untouched. -/
def Forwarder.closeProcess (fw : Forwarder) : List Event × Forwarder :=
  ((if fw.host_process then [Event.closeHostProcess] else []) ++
   (if fw.device_process then [Event.closeDeviceProcess] else []) ++
   (if fw.adb_forward_process then [Event.closeAdbForwardProcess] else []),
   { fw with
      host_process := false
      device_process := false
      adb_forward_process := false })

/-- Embeds `Forwarder.Close`. -/
def Forwarder.Close (fw : Forwarder) : List Event × Forwarder :=
  fw.closeProcess

/-- Embeds `Forwarder.DevicePortForHostPort`. -/
def Forwarder.DevicePortForHostPort (fw : Forwarder) (host_port : Nat) :
    Option Nat :=
  dictGet fw.host_to_device_port_map host_port

/-- Rendering of the spec's `Active` session state on the embedded state:
all three process handles are live. -/
def Forwarder.isActive (fw : Forwarder) : Bool :=
  fw.host_process && fw.device_process && fw.adb_forward_process

instance {ε α : Type} [DecidableEq ε] [DecidableEq α] :
    DecidableEq (Except ε α) := fun x y =>
  match x, y with
  | Except.ok a, Except.ok b =>
    if h : a = b then Decidable.isTrue (by rw [h])
    else Decidable.isFalse (by simp [h])
  | Except.error a, Except.error b =>
    if h : a = b then Decidable.isTrue (by rw [h])
    else Decidable.isFalse (by simp [h])
  | Except.ok _, Except.error _ => Decidable.isFalse (by simp)
  | Except.error _, Except.ok _ => Decidable.isFalse (by simp)

/-- Environment with a clean device handshake and no host output. -/
def envA : Env :=
  { deviceLines := ["Starting Device Forwarder."]
    deviceEof := true
    hostLines := []
    hostEof := true
    portOwners := fun _ => [] }

/-- Environment acknowledging one forward: host port 8080 to device port
9001. -/
def envB : Env :=
  { envA with hostLines := ["Forwarding device port 9001 to host 8080:"] }

/-- Environment of the two-pair scenario: acknowledgements for host ports
8080 (device 9001) and 8081 (device 9000). -/
def envC : Env :=
  { envA with
      hostLines := ["Forwarding device port 9001 to host 8080:",
                    "Forwarding device port 9000 to host 8081:"] }

/-- Success acknowledgements consumed by `hostLoop`: the (device port,
host port) captures of the per-pair `expect` calls, cut off at the first
non-success outcome. -/
def hostAcks : List (Nat × Nat) → List String → Bool → List (Nat × Nat)
  | [], _, _ => []
  | _ :: rest, lines, eofB =>
    match expectHost lines eofB with
    | (HostOutcome.ack dp hp, lines') => (dp, hp) :: hostAcks rest lines' eofB
    | _ => []

/-- Device port recorded for a host port by a list of acknowledgements,
with a later acknowledgement overriding an earlier one (dict write order). -/
def ackValue : List (Nat × Nat) → Nat → Option Nat
  | [], _ => none
  | a :: rest, hp =>
    match ackValue rest hp with
    | some dp => some dp
    | none => if a.2 = hp then some a.1 else none

/-- Protocol conformance of a host-forwarder stream for a request list:
whenever the per-pair `expect` resolves to a success acknowledgement, that
acknowledgement names the requested host port and, unless the requested
device port was 0 (dynamic), the requested device port.  Non-success
outcomes are unconstrained (they abort the construction). -/
def conformantRun : List (Nat × Nat) → List String → Bool → Bool
  | [], _, _ => true
  | p :: rest, lines, eofB =>
    match expectHost lines eofB with
    | (HostOutcome.ack adp ahp, lines') =>
      (ahp == p.2) && (p.1 == 0 || adp == p.1) && conformantRun rest lines' eofB
    | _ => true

/-- Recognizer for the device-shell kill command event. -/
def Event.isAdbShellKill : Event → Bool
  | Event.adbShellKill _ => true
  | _ => false

/-- Recognizer for the warning logged before killing a stale forwarder. -/
def Event.isLogKillWarning : Event → Bool
  | Event.logKillWarning _ _ => true
  | _ => false

/-- Recognizer for the port-owner query event. -/
def Event.isQueryPortOwners : Event → Bool
  | Event.queryPortOwners _ => true
  | _ => false

/-- Events that the port-reclaim pass can produce. -/
def Event.isReclaimEvent : Event → Bool
  | Event.queryPortOwners _ => true
  | Event.logKillWarning _ _ => true
  | Event.adbShellKill _ => true
  | Event.logNotKillError _ _ _ => true
  | _ => false

/-- Events that the per-pair host `expect` loop can produce. -/
def Event.isHostLoopEvent : Event → Bool
  | Event.logForwardInfo _ _ => true
  | Event.logHostBeforeError => true
  | Event.closeHostProcess => true
  | Event.closeDeviceProcess => true
  | Event.closeAdbForwardProcess => true
  | _ => false

/-- Session state after a successful construction with one 8080 mapping. -/
def fwA : Forwarder := ⟨[], true, true, true⟩

/-- Session state of the single-pair run against `envB`. -/
def fwB : Forwarder := ⟨[(8080, 9001)], true, true, true⟩

/-- Device-forwarder failure environment: the startup line carries the
embedded error marker with message `boom`. -/
def envD : Env := { envA with deviceLines := ["boot:ERROR:boom"] }

/-- Device-forwarder stream-closed environment: no output, then EOF. -/
def envF : Env := { envA with deviceLines := [] }

/-- Environment where device port 9000 is owned by a foreign process
(`logcat`) and the handshake succeeds for the single pair. -/
def envE : Env :=
  { envA with
      hostLines := ["Forwarding device port 9000 to host 80:"]
      portOwners := fun p => if p = 9000 then [(5, "logcat")] else [] }

/-- Environment where device port 9000 is owned by a stale
`device_forwarder` process with pid 5. -/
def envW : Env :=
  { envE with
      portOwners := fun p =>
        if p = 9000 then [(5, "device_forwarder")] else [] }

/-- Session state of the two-pair run against `envC`. -/
def fwC : Forwarder := ⟨[(8080, 9001), (8081, 9000)], true, true, true⟩

theorem dictGet_insert_self (m : List (Nat × Nat)) (k v : Nat) :
    dictGet (dictInsert m k v) k = some v := by
  induction m with
  | nil => simp [dictInsert, dictGet]
  | cons p m ih =>
    by_cases h : p.1 = k
    · simp [dictInsert, dictGet, h]
    · simp [dictInsert, dictGet, h, ih]

theorem dictGet_insert_ne (m : List (Nat × Nat)) (k v k' : Nat)
    (h : k' ≠ k) : dictGet (dictInsert m k v) k' = dictGet m k' := by
  induction m with
  | nil => simp [dictInsert, dictGet, Ne.symm h]
  | cons p m ih =>
    by_cases hp : p.1 = k
    · simp [dictInsert, dictGet, hp, Ne.symm h]
    · simp [dictInsert, dictGet, hp, ih]

theorem length_dictInsert_of_get_none (m : List (Nat × Nat)) (k v : Nat)
    (h : dictGet m k = none) :
    (dictInsert m k v).length = m.length + 1 := by
  induction m with
  | nil => simp [dictInsert]
  | cons p m ih =>
    by_cases hp : p.1 = k
    · simp [dictGet, hp] at h
    · simp [dictGet, hp] at h
      simp [dictInsert, hp, ih h]

theorem length_le_dictInsert (m : List (Nat × Nat)) (k v : Nat) :
    m.length ≤ (dictInsert m k v).length := by
  induction m with
  | nil => simp [dictInsert]
  | cons p m ih =>
    by_cases hp : p.1 = k
    · simp [dictInsert, hp]
    · simpa [dictInsert, hp] using Nat.succ_le_succ ih

theorem dictInsert_ne_nil (m : List (Nat × Nat)) (k v : Nat) :
    dictInsert m k v ≠ [] := by
  cases m with
  | nil => simp [dictInsert]
  | cons p m =>
    by_cases hp : p.1 = k <;> simp [dictInsert, hp]

theorem hostLoop_ok_map (pairs : List (Nat × Nat)) (lines : List String)
    (eofB : Bool) (m : List (Nat × Nat)) (evs : List Event)
    (m' : List (Nat × Nat))
    (hrun : hostLoop pairs lines eofB m = (evs, Except.ok m')) :
    m' = (hostAcks pairs lines eofB).foldl
      (fun acc a => dictInsert acc a.2 a.1) m := by
  induction pairs generalizing lines m evs with
  | nil =>
    simp only [hostLoop, Prod.mk.injEq, Except.ok.injEq] at hrun
    obtain ⟨-, hm⟩ := hrun
    subst hm
    simp [hostAcks]
  | cons p rest ih =>
    rcases hexp : expectHost lines eofB with ⟨o, lines'⟩
    cases o with
    | ack dp hp =>
      rcases hrec : hostLoop rest lines' eofB (dictInsert m hp dp)
        with ⟨evs₁, r₁⟩
      rw [hostLoop, hexp] at hrun
      simp only [hrec] at hrun
      injection hrun with h1 h2
      rw [h2] at hrec
      rw [hostAcks, hexp, List.foldl]
      exact ih lines' (dictInsert m hp dp) evs₁ hrec
    | refused dp hp => rw [hostLoop, hexp] at hrun; simp at hrun
    | eof => rw [hostLoop, hexp] at hrun; simp at hrun
    | timedOut => rw [hostLoop, hexp] at hrun; simp at hrun

theorem dictGet_foldl_acks (acks : List (Nat × Nat)) (m : List (Nat × Nat))
    (k : Nat) :
    dictGet (acks.foldl (fun acc a => dictInsert acc a.2 a.1) m) k =
      match ackValue acks k with
      | some dp => some dp
      | none => dictGet m k := by
  induction acks generalizing m with
  | nil => simp [ackValue]
  | cons a rest ih =>
    rw [List.foldl, ih]
    rcases hv : ackValue rest k with _ | dp
    · by_cases hk : a.2 = k
      · simp [ackValue, hv, hk, dictGet_insert_self]
      · simp [ackValue, hv, hk,
          dictGet_insert_ne m a.2 a.1 k (fun hh => hk hh.symm)]
    · simp [ackValue, hv]

theorem isReclaimEvent_of_mem_kill (env : Env) (d : Nat) (e : Event)
    (he : e ∈ killForwardersUsingDevicePort env d) :
    e.isReclaimEvent = true := by
  simp only [killForwardersUsingDevicePort] at he
  rcases List.mem_cons.mp he with rfl | he'
  · rfl
  · obtain ⟨l, hl, hel⟩ := List.mem_flatten.mp he'
    obtain ⟨po, _, rfl⟩ := List.mem_map.mp hl
    by_cases hn : po.2 = "device_forwarder"
    · simp only [hn, if_pos] at hel
      rcases List.mem_cons.mp hel with rfl | hel'
      · rfl
      · rcases List.mem_cons.mp hel' with rfl | h
        · rfl
        · exact absurd h (List.not_mem_nil e)
    · simp only [hn, if_neg, ite_false] at hel
      rcases List.mem_cons.mp hel with rfl | h
      · rfl
      · exact absurd h (List.not_mem_nil e)

theorem isReclaimEvent_of_mem_reclaim (env : Env)
    (port_pairs : List (Nat × Nat)) (e : Event)
    (he : e ∈ reclaimEvents env port_pairs) : e.isReclaimEvent = true := by
  simp only [reclaimEvents] at he
  obtain ⟨l, hl, hel⟩ := List.mem_flatten.mp he
  obtain ⟨p, _, rfl⟩ := List.mem_map.mp hl
  by_cases hz : p.1 ≠ 0
  · rw [if_pos hz] at hel
    exact isReclaimEvent_of_mem_kill env p.1 e hel
  · rw [if_neg hz] at hel
    exact absurd hel (List.not_mem_nil e)

theorem isHostLoopEvent_of_mem_hostLoop (pairs : List (Nat × Nat))
    (lines : List String) (eofB : Bool) (m : List (Nat × Nat)) (e : Event)
    (he : e ∈ (hostLoop pairs lines eofB m).1) :
    e.isHostLoopEvent = true := by
  induction pairs generalizing lines m with
  | nil => simp [hostLoop] at he
  | cons p rest ih =>
    rcases hexp : expectHost lines eofB with ⟨o, lines'⟩
    cases o with
    | ack dp hp =>
      rw [hostLoop, hexp] at he
      simp only [List.mem_cons] at he
      rcases he with rfl | he'
      · rfl
      · exact ih lines' (dictInsert m hp dp) he'
    | refused dp hp =>
      rw [hostLoop, hexp] at he
      simp only [List.mem_cons] at he
      rcases he with rfl | rfl | rfl | h
      · rfl
      · rfl
      · rfl
      · exact absurd h (List.not_mem_nil e)
    | eof =>
      rw [hostLoop, hexp] at he
      simp only [List.mem_cons] at he
      rcases he with rfl | rfl | rfl | rfl | h
      · rfl
      · rfl
      · rfl
      · rfl
      · exact absurd h (List.not_mem_nil e)
    | timedOut =>
      rw [hostLoop, hexp] at he
      simp only [List.mem_cons] at he
      rcases he with rfl | rfl | rfl | rfl | h
      · rfl
      · rfl
      · rfl
      · rfl
      · exact absurd h (List.not_mem_nil e)

theorem hostLoop_conformant_ok (pairs : List (Nat × Nat))
    (lines : List String) (eofB : Bool) (m : List (Nat × Nat))
    (evs : List Event) (m' : List (Nat × Nat))
    (hrun : hostLoop pairs lines eofB m = (evs, Except.ok m'))
    (hconf : conformantRun pairs lines eofB = true)
    (hnodup : (pairs.map Prod.snd).Nodup)
    (hfresh : ∀ p ∈ pairs, dictGet m p.2 = none) :
    m'.length = m.length + pairs.length ∧
    (∀ p ∈ pairs, ∃ dp, dictGet m' p.2 = some dp ∧ (p.1 ≠ 0 → dp = p.1)) ∧
    (∀ k, (∀ p ∈ pairs, p.2 ≠ k) → dictGet m' k = dictGet m k) := by
  induction pairs generalizing lines m evs with
  | nil =>
    simp only [hostLoop, Prod.mk.injEq, Except.ok.injEq] at hrun
    obtain ⟨-, hm⟩ := hrun
    subst hm
    simp
  | cons p rest ih =>
    rcases hexp : expectHost lines eofB with ⟨o, lines'⟩
    cases o with
    | ack adp ahp =>
      rw [conformantRun, hexp] at hconf
      simp only [Bool.and_eq_true, beq_iff_eq, Bool.or_eq_true] at hconf
      obtain ⟨⟨hhp, hdp⟩, hconf'⟩ := hconf
      subst hhp
      rcases hrec : hostLoop rest lines' eofB (dictInsert m p.2 adp)
        with ⟨evs₁, r₁⟩
      rw [hostLoop, hexp] at hrun
      simp only [hrec] at hrun
      injection hrun with h1 h2
      rw [h2] at hrec
      simp only [List.map_cons, List.nodup_cons] at hnodup
      obtain ⟨hnotin, hnodup'⟩ := hnodup
      have hfresh' : ∀ q ∈ rest, dictGet (dictInsert m p.2 adp) q.2 = none := by
        intro q hq
        have hne : q.2 ≠ p.2 := by
          intro hcontra
          exact hnotin (hcontra ▸ List.mem_map_of_mem Prod.snd hq)
        rw [dictGet_insert_ne m p.2 adp q.2 hne]
        exact hfresh q (List.mem_cons_of_mem p hq)
      obtain ⟨hlen, hper, hpres⟩ :=
        ih lines' (dictInsert m p.2 adp) evs₁ hrec hconf' hnodup' hfresh'
      have hrestne : ∀ q ∈ rest, q.2 ≠ p.2 := by
        intro q hq hcontra
        exact hnotin (hcontra ▸ List.mem_map_of_mem Prod.snd hq)
      refine ⟨?_, ?_, ?_⟩
      · rw [hlen, length_dictInsert_of_get_none m p.2 adp
          (hfresh p (List.mem_cons_self p rest))]
        simp [Nat.add_assoc, Nat.add_comm 1 rest.length]
      · intro q hq
        rcases List.mem_cons.mp hq with rfl | hq'
        · refine ⟨adp, ?_, ?_⟩
          · rw [hpres q.2 hrestne, dictGet_insert_self]
          · intro hz
            rcases hdp with h0 | h1
            · exact absurd h0 hz
            · exact h1
        · exact hper q hq'
      · intro k hk
        rw [hpres k (fun q hq => hk q (List.mem_cons_of_mem p hq)),
          dictGet_insert_ne m p.2 adp k
            (Ne.symm (hk p (List.mem_cons_self p rest)))]
    | refused dp hp => rw [hostLoop, hexp] at hrun; simp at hrun
    | eof => rw [hostLoop, hexp] at hrun; simp at hrun
    | timedOut => rw [hostLoop, hexp] at hrun; simp at hrun

/-- C1: for a non-conflicting request list (pairwise distinct host ports)
run against a host-forwarder stream that conforms to the acknowledgement
protocol, construction either raises an error or completes with a mapping
table holding exactly one entry per requested pair, keyed by the requested
host port and valued by the requested device port (or the acknowledged
dynamic one when the request was 0); a successful construction is never
partially populated. -/
theorem open_conformant_complete_mapping_or_error (env : Env)
    (port_pairs : List (Nat × Nat))
    (hnodup : (port_pairs.map Prod.snd).Nodup)
    (hconf : conformantRun port_pairs env.hostLines env.hostEof = true) :
    (∃ e, (forwarderInit env port_pairs).2 = Except.error e) ∨
    (∃ fw, (forwarderInit env port_pairs).2 = Except.ok fw ∧
      fw.host_to_device_port_map.length = port_pairs.length ∧
      ∀ p ∈ port_pairs, ∃ dp,
        fw.DevicePortForHostPort p.2 = some dp ∧ (p.1 ≠ 0 → dp = p.1)) := by
  cases hdev : expectDevice env.deviceLines env.deviceEof with
  | failed msg =>
    exact Or.inl ⟨FwdError.deviceForwarderFailed msg,
      by simp [forwarderInit, hdev]⟩
  | eof =>
    exact Or.inl ⟨FwdError.deviceForwarderEof, by simp [forwarderInit, hdev]⟩
  | timedOut =>
    exact Or.inl ⟨FwdError.deviceForwarderTimedOut,
      by simp [forwarderInit, hdev]⟩
  | started =>
    rcases hl : hostLoop port_pairs env.hostLines env.hostEof []
      with ⟨evs, r⟩
    cases r with
    | error e =>
      exact Or.inl ⟨e, by simp [forwarderInit, hdev, hl, Except.map]⟩
    | ok m =>
      obtain ⟨hlen, hper, -⟩ :=
        hostLoop_conformant_ok port_pairs env.hostLines env.hostEof [] evs m
          hl hconf hnodup (fun p _ => rfl)
      refine Or.inr ⟨⟨m, true, true, true⟩,
        by simp [forwarderInit, hdev, hl, Except.map], by simpa using hlen, ?_⟩
      intro p hp
      obtain ⟨dp, h1, h2⟩ := hper p hp
      exact ⟨dp, by simpa [Forwarder.DevicePortForHostPort] using h1, h2⟩

/-- Witness for C1 at the two-pair scenario environment. -/
theorem open_conformant_complete_mapping_or_error_witness :
    ((([(0, 8080), (9000, 8081)] : List (Nat × Nat)).map Prod.snd).Nodup ∧
      conformantRun [(0, 8080), (9000, 8081)] envC.hostLines envC.hostEof =
        true) ∧
    ((∃ e, (forwarderInit envC [(0, 8080), (9000, 8081)]).2 =
        Except.error e) ∨
      (∃ fw, (forwarderInit envC [(0, 8080), (9000, 8081)]).2 =
          Except.ok fw ∧
        fw.host_to_device_port_map.length =
          ([(0, 8080), (9000, 8081)] : List (Nat × Nat)).length ∧
        ∀ p ∈ ([(0, 8080), (9000, 8081)] : List (Nat × Nat)), ∃ dp,
          fw.DevicePortForHostPort p.2 = some dp ∧
            (p.1 ≠ 0 → dp = p.1))) :=
  ⟨⟨by decide, by decide⟩,
    open_conformant_complete_mapping_or_error envC [(0, 8080), (9000, 8081)]
      (by decide) (by decide)⟩

theorem foldl_dictInsert_ne_nil (acks : List (Nat × Nat))
    (m : List (Nat × Nat)) (hm : m ≠ []) :
    acks.foldl (fun acc a => dictInsert acc a.2 a.1) m ≠ [] := by
  induction acks generalizing m with
  | nil => simpa using hm
  | cons a rest ih => exact ih (dictInsert m a.2 a.1) (dictInsert_ne_nil m a.2 a.1)

theorem hostLoop_ok_ne_nil (pairs : List (Nat × Nat)) (lines : List String)
    (eofB : Bool) (m : List (Nat × Nat)) (evs : List Event)
    (m' : List (Nat × Nat))
    (hrun : hostLoop pairs lines eofB m = (evs, Except.ok m'))
    (hne : pairs ≠ []) : m' ≠ [] := by
  cases pairs with
  | nil => exact absurd rfl hne
  | cons p rest =>
    rcases hexp : expectHost lines eofB with ⟨o, lines'⟩
    cases o with
    | ack dp hp =>
      rcases hrec : hostLoop rest lines' eofB (dictInsert m hp dp)
        with ⟨evs₁, r₁⟩
      rw [hostLoop, hexp] at hrun
      simp only [hrec] at hrun
      injection hrun with h1 h2
      rw [h2] at hrec
      rw [hostLoop_ok_map rest lines' eofB (dictInsert m hp dp) evs₁ m' hrec]
      exact foldl_dictInsert_ne_nil _ _ (dictInsert_ne_nil m hp dp)
    | refused dp hp => rw [hostLoop, hexp] at hrun; simp at hrun
    | eof => rw [hostLoop, hexp] at hrun; simp at hrun
    | timedOut => rw [hostLoop, hexp] at hrun; simp at hrun

/-- C2 counterexample: the claimed invariant (mapping table non-empty iff
the session is Active) fails in both directions on the code.  A session
constructed from an empty pair list is Active with an empty table, and a
session whose `Close` has run (so it is no longer Active) retains its
table entry because `_CloseProcess` never clears the map. -/
theorem mapping_nonempty_iff_active_counterexample :
    (forwarderInit envA []).2 = Except.ok fwA ∧ fwA.isActive = true ∧
    fwA.host_to_device_port_map = [] ∧
    (forwarderInit envB [(0, 8080)]).2 = Except.ok fwB ∧
    (fwB.Close.2).isActive = false ∧
    (fwB.Close.2).host_to_device_port_map = [(8080, 9001)] := by decide

/-- C2 amended: a successfully constructed session is Active, and its
mapping table is non-empty provided at least one pair was requested; but
the table is never cleared, so after `Close` (which leaves the Active
state) the table still holds its entries. -/
theorem mapping_nonempty_on_active_not_cleared_on_close (env : Env)
    (port_pairs : List (Nat × Nat)) (fw : Forwarder)
    (hok : (forwarderInit env port_pairs).2 = Except.ok fw) :
    fw.isActive = true ∧
    (port_pairs ≠ [] → fw.host_to_device_port_map ≠ []) ∧
    (fw.Close.2).host_to_device_port_map = fw.host_to_device_port_map ∧
    (fw.Close.2).isActive = false := by
  cases hdev : expectDevice env.deviceLines env.deviceEof with
  | failed msg => simp [forwarderInit, hdev] at hok
  | eof => simp [forwarderInit, hdev] at hok
  | timedOut => simp [forwarderInit, hdev] at hok
  | started =>
    rcases hl : hostLoop port_pairs env.hostLines env.hostEof []
      with ⟨evs, r⟩
    cases r with
    | error e => simp [forwarderInit, hdev, hl, Except.map] at hok
    | ok m =>
      simp only [forwarderInit, hdev, hl, Except.map, Except.ok.injEq] at hok
      subst hok
      refine ⟨rfl, ?_, rfl, rfl⟩
      intro hne
      simpa using hostLoop_ok_ne_nil port_pairs env.hostLines env.hostEof
        [] evs m hl hne

/-- Witness for the amended C2 at the single-pair environment. -/
theorem mapping_nonempty_on_active_not_cleared_on_close_witness :
    ((forwarderInit envB [(0, 8080)]).2 = Except.ok fwB) ∧
    (fwB.isActive = true ∧
      (([(0, 8080)] : List (Nat × Nat)) ≠ [] →
        fwB.host_to_device_port_map ≠ []) ∧
      (fwB.Close.2).host_to_device_port_map = fwB.host_to_device_port_map ∧
      (fwB.Close.2).isActive = false) :=
  ⟨by decide,
    mapping_nonempty_on_active_not_cleared_on_close envB [(0, 8080)] fwB
      (by decide)⟩

/-- C6 counterexample: `DevicePortForHostPort` does not return `None`
outside the Active state — after `Close` the session is no longer Active,
yet the lookup still returns the recorded device port, because the lookup
reads only the (uncleared) map. -/
theorem lookup_after_close_counterexample :
    (forwarderInit envB [(0, 8080)]).2 = Except.ok fwB ∧
    (fwB.Close.2).isActive = false ∧
    (fwB.Close.2).DevicePortForHostPort 8080 = some 9001 := by decide

/-- C6 amended: `DevicePortForHostPort` consults only the mapping table and
ignores the session state entirely; `Close` does not change any lookup
result, so a recorded host port keeps resolving after close and `None` is
returned exactly for host ports never recorded. -/
theorem lookup_unaffected_by_close (fw : Forwarder) (hp : Nat) :
    (fw.Close.2).DevicePortForHostPort hp = fw.DevicePortForHostPort hp := by
  cases fw
  rfl

/-- C7: `Close` is idempotent — after one `Close` all three process handles
are already released, so a second `Close` performs no termination action
(it emits no events) and leaves the state exactly as the first left it. -/
theorem close_idempotent (fw : Forwarder) :
    ((fw.Close.2).Close).2 = fw.Close.2 ∧ ((fw.Close.2).Close).1 = [] := by
  cases fw
  simp [Forwarder.Close, Forwarder.closeProcess]

theorem spawnHost_not_mem_preEvents (env : Env)
    (port_pairs : List (Nat × Nat)) :
    Event.spawnHostForwarder ∉ preEvents env port_pairs := by
  intro he
  simp only [preEvents, List.mem_cons, List.mem_append] at he
  rcases he with (h | h | h | h) | h
  · exact Event.noConfusion h
  · exact Event.noConfusion h
  · exact Event.noConfusion h
  · have := isReclaimEvent_of_mem_reclaim env port_pairs _ h
    simp [Event.isReclaimEvent] at this
  · simp at h

theorem forwarderInit_trace_prefix (env : Env)
    (port_pairs : List (Nat × Nat)) :
    ∃ tail, (forwarderInit env port_pairs).1 =
      preEvents env port_pairs ++ tail := by
  cases hdev : expectDevice env.deviceLines env.deviceEof with
  | failed msg =>
    exact ⟨[Event.logDeviceBeforeError, Event.closeDeviceProcess,
      Event.closeAdbForwardProcess], by simp [forwarderInit, hdev]⟩
  | eof =>
    exact ⟨[Event.logDeviceBeforeError, Event.closeDeviceProcess,
      Event.closeAdbForwardProcess], by simp [forwarderInit, hdev]⟩
  | timedOut =>
    exact ⟨[Event.logDeviceBeforeError, Event.closeDeviceProcess,
      Event.closeAdbForwardProcess], by simp [forwarderInit, hdev]⟩
  | started =>
    exact ⟨Event.spawnHostForwarder ::
      (hostLoop port_pairs env.hostLines env.hostEof []).1,
      by simp [forwarderInit, hdev]⟩

theorem hostLoop_filter_eq_nil (pairs : List (Nat × Nat))
    (lines : List String) (eofB : Bool) (m : List (Nat × Nat))
    (p : Event → Bool)
    (hL : ∀ e : Event, e.isHostLoopEvent = true → p e = false) :
    (hostLoop pairs lines eofB m).1.filter p = [] := by
  rw [List.filter_eq_nil_iff]
  intro a ha
  have := isHostLoopEvent_of_mem_hostLoop pairs lines eofB m a ha
  simp [hL a this]

theorem forwarderInit_filter (env : Env) (port_pairs : List (Nat × Nat))
    (p : Event → Bool)
    (hL : ∀ e : Event, e.isHostLoopEvent = true → p e = false)
    (h1 : p Event.logDeviceBeforeError = false)
    (h4 : p Event.spawnHostForwarder = false) :
    (forwarderInit env port_pairs).1.filter p =
      (preEvents env port_pairs).filter p := by
  have hcd : p Event.closeDeviceProcess = false := hL _ rfl
  have hca : p Event.closeAdbForwardProcess = false := hL _ rfl
  cases hdev : expectDevice env.deviceLines env.deviceEof with
  | failed msg =>
    simp [forwarderInit, hdev, List.filter_append, List.filter_cons,
      h1, hcd, hca]
  | eof =>
    simp [forwarderInit, hdev, List.filter_append, List.filter_cons,
      h1, hcd, hca]
  | timedOut =>
    simp [forwarderInit, hdev, List.filter_append, List.filter_cons,
      h1, hcd, hca]
  | started =>
    have hnil := hostLoop_filter_eq_nil port_pairs env.hostLines env.hostEof
      [] p hL
    simp [forwarderInit, hdev, List.filter_append, List.filter_cons,
      h4, hnil]

/-- C3: whenever the device-forwarder handshake resolves to the failure
pattern, construction raises the handshake-failure error carrying the
captured message, and the host-forwarder spawn never appears in the trace
(it is invoked zero times). -/
theorem device_failure_aborts_without_host_spawn (env : Env)
    (port_pairs : List (Nat × Nat)) (msg : String)
    (hdev : expectDevice env.deviceLines env.deviceEof =
      DeviceOutcome.failed msg) :
    (forwarderInit env port_pairs).2 =
      Except.error (FwdError.deviceForwarderFailed msg) ∧
    Event.spawnHostForwarder ∉ (forwarderInit env port_pairs).1 := by
  constructor
  · simp [forwarderInit, hdev]
  · intro hmem
    simp only [forwarderInit, hdev] at hmem
    rcases List.mem_append.mp hmem with hpre | htail
    · exact spawnHost_not_mem_preEvents env port_pairs hpre
    · simp at htail

/-- Witness for C3 at the failing-device environment. -/
theorem device_failure_aborts_without_host_spawn_witness :
    (expectDevice envD.deviceLines envD.deviceEof =
      DeviceOutcome.failed "boom") ∧
    ((forwarderInit envD []).2 =
      Except.error (FwdError.deviceForwarderFailed "boom") ∧
    Event.spawnHostForwarder ∉ (forwarderInit envD []).1) :=
  ⟨by decide, device_failure_aborts_without_host_spawn envD [] "boom"
    (by decide)⟩

/-- C4: whenever the device-forwarder closes its output stream before any
decisive line, construction raises the unexpected-stream-end error, and the
trace ends by closing the device-forwarder and control-tunnel handles
(whose spawns appear in the earlier prefix) before the error is
surfaced. -/
theorem device_eof_closes_spawned_processes (env : Env)
    (port_pairs : List (Nat × Nat))
    (hdev : expectDevice env.deviceLines env.deviceEof =
      DeviceOutcome.eof) :
    (forwarderInit env port_pairs).2 =
      Except.error FwdError.deviceForwarderEof ∧
    (forwarderInit env port_pairs).1 =
      preEvents env port_pairs ++ [Event.logDeviceBeforeError,
        Event.closeDeviceProcess, Event.closeAdbForwardProcess] ∧
    Event.spawnAdbForward ∈ preEvents env port_pairs ∧
    Event.spawnDeviceForwarder ∈ preEvents env port_pairs := by
  refine ⟨by simp [forwarderInit, hdev], by simp [forwarderInit, hdev],
    ?_, ?_⟩
  · simp [preEvents]
  · simp [preEvents]

/-- Witness for C4 at the closed-stream environment. -/
theorem device_eof_closes_spawned_processes_witness :
    (expectDevice envF.deviceLines envF.deviceEof = DeviceOutcome.eof) ∧
    ((forwarderInit envF []).2 =
      Except.error FwdError.deviceForwarderEof ∧
    (forwarderInit envF []).1 =
      preEvents envF [] ++ [Event.logDeviceBeforeError,
        Event.closeDeviceProcess, Event.closeAdbForwardProcess] ∧
    Event.spawnAdbForward ∈ preEvents envF [] ∧
    Event.spawnDeviceForwarder ∈ preEvents envF []) :=
  ⟨by decide, device_eof_closes_spawned_processes envF [] (by decide)⟩

/-- C10: on every construction — any environment, any request list, the
empty one included — the trace starts with the reclaim pass followed
immediately by the host-side `killall host_forwarder` command and only then
the control-tunnel spawn; no kill-all or tunnel spawn occurs earlier. -/
theorem killall_unconditional_before_tunnel (env : Env)
    (port_pairs : List (Nat × Nat)) :
    (∃ tail, (forwarderInit env port_pairs).1 =
      (Event.allocatePort :: Event.pushDeviceForwarder ::
       Event.logForwardListInfo :: reclaimEvents env port_pairs) ++
      (Event.killallHostForwarder :: Event.spawnAdbForward ::
       Event.spawnDeviceForwarder :: tail)) ∧
    Event.killallHostForwarder ∉ reclaimEvents env port_pairs ∧
    Event.spawnAdbForward ∉ reclaimEvents env port_pairs := by
  refine ⟨?_, ?_, ?_⟩
  · obtain ⟨tail, htail⟩ := forwarderInit_trace_prefix env port_pairs
    exact ⟨tail, by rw [htail]; simp [preEvents]⟩
  · intro h
    have := isReclaimEvent_of_mem_reclaim env port_pairs _ h
    simp [Event.isReclaimEvent] at this
  · intro h
    have := isReclaimEvent_of_mem_reclaim env port_pairs _ h
    simp [Event.isReclaimEvent] at this

theorem hostLoopEvent_not_adbShellKill (e : Event)
    (he : e.isHostLoopEvent = true) : e.isAdbShellKill = false := by
  cases e <;> simp_all [Event.isHostLoopEvent, Event.isAdbShellKill]

theorem hostLoopEvent_not_queryPortOwners (e : Event)
    (he : e.isHostLoopEvent = true) : e.isQueryPortOwners = false := by
  cases e <;> simp_all [Event.isHostLoopEvent, Event.isQueryPortOwners]

/-- C9 counterexample: when the prior owner of the requested device port
has a different name, the code issues zero kill commands (as claimed) but
logs the skip at error level via `logging.error`, not as a warning — no
warning event occurs anywhere in the run, refuting the claim that a
warning is logged. -/
theorem reclaim_other_owner_counterexample :
    (forwarderInit envE [(9000, 80)]).1.filter Event.isAdbShellKill = [] ∧
    (forwarderInit envE [(9000, 80)]).1.filter Event.isLogKillWarning = [] ∧
    Event.logNotKillError 5 "logcat" 9000 ∈
      (forwarderInit envE [(9000, 80)]).1 ∧
    (forwarderInit envE [(9000, 80)]).2 =
      Except.ok ⟨[(80, 9000)], true, true, true⟩ := by decide

/-- C5: on a freshly constructed (Active) session, every lookup result is
exactly what the handshake acknowledgement lines captured — the device
port of the (last) acknowledgement naming the host port, and `None` for a
host port named by no acknowledgement. -/
theorem lookup_returns_acknowledged_device_port (env : Env)
    (port_pairs : List (Nat × Nat)) (fw : Forwarder) (hp : Nat)
    (hok : (forwarderInit env port_pairs).2 = Except.ok fw) :
    fw.DevicePortForHostPort hp =
      ackValue (hostAcks port_pairs env.hostLines env.hostEof) hp := by
  cases hdev : expectDevice env.deviceLines env.deviceEof with
  | failed msg => simp [forwarderInit, hdev] at hok
  | eof => simp [forwarderInit, hdev] at hok
  | timedOut => simp [forwarderInit, hdev] at hok
  | started =>
    rcases hl : hostLoop port_pairs env.hostLines env.hostEof []
      with ⟨evs, r⟩
    cases r with
    | error e => simp [forwarderInit, hdev, hl, Except.map] at hok
    | ok m =>
      simp only [forwarderInit, hdev, hl, Except.map, Except.ok.injEq]
        at hok
      subst hok
      rw [Forwarder.DevicePortForHostPort]
      rw [hostLoop_ok_map port_pairs env.hostLines env.hostEof [] evs m hl]
      rw [dictGet_foldl_acks]
      rcases hv : ackValue (hostAcks port_pairs env.hostLines env.hostEof)
        hp with _ | dp
      · simp [dictGet]
      · simp

/-- Witness for C5 at the two-pair scenario environment. -/
theorem lookup_returns_acknowledged_device_port_witness :
    ((forwarderInit envC [(0, 8080), (9000, 8081)]).2 = Except.ok fwC) ∧
    fwC.DevicePortForHostPort 8080 =
      ackValue (hostAcks [(0, 8080), (9000, 8081)] envC.hostLines
        envC.hostEof) 8080 :=
  ⟨by decide,
    lookup_returns_acknowledged_device_port envC [(0, 8080), (9000, 8081)]
      fwC 8080 (by decide)⟩

/-- C8: on request list `[(0, 8080), (9000, 8081)]` with the
host-forwarder emitting the two given acknowledgement lines, both lines
parse as per-pair success acknowledgements and the resulting map is
exactly 8080 to 9001 and 8081 to 9000. -/
theorem two_pair_scenario_mapping :
    hostAcks [(0, 8080), (9000, 8081)] envC.hostLines envC.hostEof =
      [(9001, 8080), (9000, 8081)] ∧
    (forwarderInit envC [(0, 8080), (9000, 8081)]).2 =
      Except.ok ⟨[(8080, 9001), (8081, 9000)], true, true, true⟩ := by
  decide

theorem count_flatten_eq_sum (a : Event) (L : List (List Event)) :
    L.flatten.count a = (L.map (List.count a)).sum := by
  induction L with
  | nil => rfl
  | cons l L ih => simp [List.count_append, ih]

theorem count_kill_owner_events (d pid : Nat)
    (owners : List (Nat × String)) :
    ((owners.map (fun po =>
      if po.2 = "device_forwarder" then
        [Event.logKillWarning po.1 d, Event.adbShellKill po.1]
      else
        [Event.logNotKillError po.1 po.2 d])).flatten).count
        (Event.adbShellKill pid) =
      owners.count (pid, "device_forwarder") := by
  induction owners with
  | nil => rfl
  | cons po rest ih =>
    rcases po with ⟨ppid, pname⟩
    rw [List.map_cons, List.flatten_cons, List.count_append, ih]
    by_cases hn : pname = "device_forwarder"
    · subst hn
      by_cases hpid : ppid = pid
      · subst hpid
        simp only [List.count_cons, beq_iff_eq]
        simp
        omega
      · simp [List.count_cons, beq_iff_eq, hpid]
    · simp [List.count_cons, beq_iff_eq, hn]

theorem count_kill_killForwarders (env : Env) (d pid : Nat) :
    (killForwardersUsingDevicePort env d).count (Event.adbShellKill pid) =
      (env.portOwners d).count (pid, "device_forwarder") := by
  rw [killForwardersUsingDevicePort, List.count_cons,
    count_kill_owner_events d pid (env.portOwners d)]
  simp

theorem count_kill_reclaim (env : Env) (port_pairs : List (Nat × Nat))
    (pid : Nat) :
    (reclaimEvents env port_pairs).count (Event.adbShellKill pid) =
      (port_pairs.map (fun p =>
        if p.1 ≠ 0 then
          (env.portOwners p.1).count (pid, "device_forwarder")
        else 0)).sum := by
  induction port_pairs with
  | nil => rfl
  | cons p rest ih =>
    rw [reclaimEvents] at ih ⊢
    rw [List.map_cons, List.flatten_cons, List.count_append, ih,
      List.map_cons, List.sum_cons]
    by_cases hz : p.1 ≠ 0
    · rw [if_pos hz, if_pos hz, count_kill_killForwarders]
    · rw [if_neg hz, if_neg hz]
      simp

theorem forwarderInit_tail_classified (env : Env)
    (port_pairs : List (Nat × Nat)) :
    ∃ tail, (forwarderInit env port_pairs).1 =
        preEvents env port_pairs ++ tail ∧
      ∀ e ∈ tail, e = Event.logDeviceBeforeError ∨
        e = Event.spawnHostForwarder ∨ e.isHostLoopEvent = true := by
  cases hdev : expectDevice env.deviceLines env.deviceEof with
  | failed msg =>
    refine ⟨[Event.logDeviceBeforeError, Event.closeDeviceProcess,
      Event.closeAdbForwardProcess], by simp [forwarderInit, hdev], ?_⟩
    intro e he
    rcases List.mem_cons.mp he with rfl | he'
    · exact Or.inl rfl
    · rcases List.mem_cons.mp he' with rfl | he''
      · exact Or.inr (Or.inr rfl)
      · rcases List.mem_cons.mp he'' with rfl | h
        · exact Or.inr (Or.inr rfl)
        · exact absurd h (List.not_mem_nil e)
  | eof =>
    refine ⟨[Event.logDeviceBeforeError, Event.closeDeviceProcess,
      Event.closeAdbForwardProcess], by simp [forwarderInit, hdev], ?_⟩
    intro e he
    rcases List.mem_cons.mp he with rfl | he'
    · exact Or.inl rfl
    · rcases List.mem_cons.mp he' with rfl | he''
      · exact Or.inr (Or.inr rfl)
      · rcases List.mem_cons.mp he'' with rfl | h
        · exact Or.inr (Or.inr rfl)
        · exact absurd h (List.not_mem_nil e)
  | timedOut =>
    refine ⟨[Event.logDeviceBeforeError, Event.closeDeviceProcess,
      Event.closeAdbForwardProcess], by simp [forwarderInit, hdev], ?_⟩
    intro e he
    rcases List.mem_cons.mp he with rfl | he'
    · exact Or.inl rfl
    · rcases List.mem_cons.mp he' with rfl | he''
      · exact Or.inr (Or.inr rfl)
      · rcases List.mem_cons.mp he'' with rfl | h
        · exact Or.inr (Or.inr rfl)
        · exact absurd h (List.not_mem_nil e)
  | started =>
    refine ⟨Event.spawnHostForwarder ::
      (hostLoop port_pairs env.hostLines env.hostEof []).1,
      by simp [forwarderInit, hdev], ?_⟩
    intro e he
    rcases List.mem_cons.mp he with rfl | he'
    · exact Or.inr (Or.inl rfl)
    · exact Or.inr (Or.inr
        (isHostLoopEvent_of_mem_hostLoop port_pairs env.hostLines
          env.hostEof [] e he'))

theorem query_mem_killForwarders (env : Env) (dq d : Nat)
    (h : Event.queryPortOwners dq ∈ killForwardersUsingDevicePort env d) :
    dq = d := by
  simp only [killForwardersUsingDevicePort, List.mem_cons] at h
  rcases h with h | h
  · exact Event.queryPortOwners.inj h
  · obtain ⟨l, hl, hel⟩ := List.mem_flatten.mp h
    obtain ⟨po, -, rfl⟩ := List.mem_map.mp hl
    by_cases hn : po.2 = "device_forwarder"
    · rw [if_pos hn] at hel
      rcases List.mem_cons.mp hel with h' | h'
      · exact Event.noConfusion h'
      · rcases List.mem_cons.mp h' with h'' | h''
        · exact Event.noConfusion h''
        · exact absurd h'' (List.not_mem_nil _)
    · rw [if_neg hn] at hel
      rcases List.mem_cons.mp hel with h' | h'
      · exact Event.noConfusion h'
      · exact absurd h' (List.not_mem_nil _)

theorem query_mem_reclaim_iff (env : Env) (port_pairs : List (Nat × Nat))
    (d : Nat) :
    Event.queryPortOwners d ∈ reclaimEvents env port_pairs ↔
      (d ≠ 0 ∧ ∃ h, (d, h) ∈ port_pairs) := by
  constructor
  · intro hmem
    simp only [reclaimEvents] at hmem
    obtain ⟨l, hl, hel⟩ := List.mem_flatten.mp hmem
    obtain ⟨p, hp, rfl⟩ := List.mem_map.mp hl
    rcases p with ⟨pd, ph⟩
    by_cases hz : pd ≠ 0
    · rw [if_pos hz] at hel
      have hd := query_mem_killForwarders env d pd hel
      subst hd
      exact ⟨hz, ph, hp⟩
    · rw [if_neg hz] at hel
      exact absurd hel (List.not_mem_nil _)
  · rintro ⟨hz, h, hp⟩
    simp only [reclaimEvents]
    exact List.mem_flatten.mpr ⟨killForwardersUsingDevicePort env d,
      List.mem_map.mpr ⟨(d, h), hp, if_pos hz⟩, List.mem_cons_self _ _⟩

theorem logNotKillError_mem_killForwarders (env : Env) (d pid : Nat)
    (name : String) (howner : (pid, name) ∈ env.portOwners d)
    (hname : name ≠ "device_forwarder") :
    Event.logNotKillError pid name d ∈
      killForwardersUsingDevicePort env d := by
  simp only [killForwardersUsingDevicePort]
  refine List.mem_cons_of_mem _ (List.mem_flatten.mpr
    ⟨[Event.logNotKillError pid name d], ?_, List.mem_cons_self _ _⟩)
  exact List.mem_map.mpr ⟨(pid, name), howner, if_neg hname⟩

theorem mem_reclaim_of_pair (env : Env) (port_pairs : List (Nat × Nat))
    (d h : Nat) (e : Event) (hp : (d, h) ∈ port_pairs) (hz : d ≠ 0)
    (he : e ∈ killForwardersUsingDevicePort env d) :
    e ∈ reclaimEvents env port_pairs := by
  simp only [reclaimEvents]
  exact List.mem_flatten.mpr ⟨killForwardersUsingDevicePort env d,
    List.mem_map.mpr ⟨(d, h), hp, if_pos hz⟩, he⟩

theorem mem_trace_of_mem_reclaim (env : Env)
    (port_pairs : List (Nat × Nat)) (e : Event)
    (h : e ∈ reclaimEvents env port_pairs) :
    e ∈ (forwarderInit env port_pairs).1 := by
  obtain ⟨tail, htail⟩ := forwarderInit_trace_prefix env port_pairs
  rw [htail]
  refine List.mem_append_left _ ?_
  simp only [preEvents]
  exact List.mem_cons_of_mem _ (List.mem_cons_of_mem _
    (List.mem_cons_of_mem _ (List.mem_append_left _ h)))

theorem mem_reclaim_section (env : Env) (port_pairs : List (Nat × Nat))
    (e : Event)
    (h : e ∈ Event.allocatePort :: Event.pushDeviceForwarder ::
      Event.logForwardListInfo :: reclaimEvents env port_pairs ++
      [Event.killallHostForwarder]) :
    e.isReclaimEvent = true ∨ e = Event.allocatePort ∨
    e = Event.pushDeviceForwarder ∨ e = Event.logForwardListInfo ∨
    e = Event.killallHostForwarder := by
  simp only [List.mem_cons, List.mem_append] at h
  rcases h with (h | h | h | h) | h
  · exact Or.inr (Or.inl h)
  · exact Or.inr (Or.inr (Or.inl h))
  · exact Or.inr (Or.inr (Or.inr (Or.inl h)))
  · exact Or.inl (isReclaimEvent_of_mem_reclaim env port_pairs e h)
  · rcases h with h | h
    · exact Or.inr (Or.inr (Or.inr (Or.inr h)))
    · exact absurd h (List.not_mem_nil e)

/-- C9 amended: for every environment and request list, each prior owner
entry named `device_forwarder` of each requested non-zero device port gets
exactly one kill shell command (the run's kill count per pid equals one
per such owner entry per such pair, so a differently-named owner gets zero
kills and a dynamic request contributes none); each differently-named
owner of a requested non-zero port additionally gets an error-level log
line (`logging.error`), not a warning; every kill precedes every spawn;
and the port-owner query is issued for a port exactly when some pair
requests it with a non-zero device port — so pairs requesting device port
0 trigger no query and no kill. -/
theorem reclaim_kills_matching_owner_logs_error_otherwise (env : Env)
    (port_pairs : List (Nat × Nat)) :
    (∀ pid : Nat,
      (forwarderInit env port_pairs).1.count (Event.adbShellKill pid) =
        (port_pairs.map (fun p =>
          if p.1 ≠ 0 then
            (env.portOwners p.1).count (pid, "device_forwarder")
          else 0)).sum) ∧
    (∀ d h pid : Nat, ∀ name : String, (d, h) ∈ port_pairs → d ≠ 0 →
      (pid, name) ∈ env.portOwners d → name ≠ "device_forwarder" →
      Event.logNotKillError pid name d ∈
        (forwarderInit env port_pairs).1) ∧
    (∃ a b, (forwarderInit env port_pairs).1 =
        a ++ Event.spawnAdbForward :: b ∧
      Event.spawnAdbForward ∉ a ∧ Event.spawnDeviceForwarder ∉ a ∧
      Event.spawnHostForwarder ∉ a ∧
      b.filter Event.isAdbShellKill = []) ∧
    (∀ d : Nat,
      Event.queryPortOwners d ∈ (forwarderInit env port_pairs).1 ↔
        (d ≠ 0 ∧ ∃ h, (d, h) ∈ port_pairs)) := by
  obtain ⟨tail, htail, hclass⟩ :=
    forwarderInit_tail_classified env port_pairs
  have htail_kill : ∀ pid : Nat, Event.adbShellKill pid ∉ tail := by
    intro pid hmem
    rcases hclass _ hmem with h | h | h
    · exact Event.noConfusion h
    · exact Event.noConfusion h
    · simp [Event.isHostLoopEvent] at h
  refine ⟨?_, ?_, ?_, ?_⟩
  · intro pid
    rw [htail, List.count_append,
      List.count_eq_zero.mpr (htail_kill pid)]
    simp [preEvents, List.count_cons, List.count_append, beq_iff_eq,
      count_kill_reclaim env port_pairs pid]
  · intro d h pid name hp hz howner hname
    exact mem_trace_of_mem_reclaim env port_pairs _
      (mem_reclaim_of_pair env port_pairs d h _ hp hz
        (logNotKillError_mem_killForwarders env d pid name howner hname))
  · refine ⟨Event.allocatePort :: Event.pushDeviceForwarder ::
      Event.logForwardListInfo :: reclaimEvents env port_pairs ++
      [Event.killallHostForwarder],
      Event.spawnDeviceForwarder :: tail, ?_, ?_, ?_, ?_, ?_⟩
    · rw [htail]
      simp [preEvents]
    · intro hmem
      rcases mem_reclaim_section env port_pairs _ hmem
        with h | h | h | h | h
      · simp [Event.isReclaimEvent] at h
      · exact Event.noConfusion h
      · exact Event.noConfusion h
      · exact Event.noConfusion h
      · exact Event.noConfusion h
    · intro hmem
      rcases mem_reclaim_section env port_pairs _ hmem
        with h | h | h | h | h
      · simp [Event.isReclaimEvent] at h
      · exact Event.noConfusion h
      · exact Event.noConfusion h
      · exact Event.noConfusion h
      · exact Event.noConfusion h
    · intro hmem
      rcases mem_reclaim_section env port_pairs _ hmem
        with h | h | h | h | h
      · simp [Event.isReclaimEvent] at h
      · exact Event.noConfusion h
      · exact Event.noConfusion h
      · exact Event.noConfusion h
      · exact Event.noConfusion h
    · have htf : tail.filter Event.isAdbShellKill = [] := by
        rw [List.filter_eq_nil_iff]
        intro a ha
        rcases hclass a ha with h | h | h
        · subst h
          simp [Event.isAdbShellKill]
        · subst h
          simp [Event.isAdbShellKill]
        · simp [hostLoopEvent_not_adbShellKill a h]
      simp [List.filter_cons, htf, Event.isAdbShellKill]
  · intro d
    constructor
    · intro hq
      rw [htail] at hq
      rcases List.mem_append.mp hq with hpre | htl
      · simp only [preEvents, List.mem_cons, List.mem_append] at hpre
        rcases hpre with (h | h | h | h) | h
        · exact Event.noConfusion h
        · exact Event.noConfusion h
        · exact Event.noConfusion h
        · exact (query_mem_reclaim_iff env port_pairs d).mp h
        · simp at h
      · rcases hclass _ htl with h | h | h
        · exact Event.noConfusion h
        · exact Event.noConfusion h
        · simp [Event.isHostLoopEvent] at h
    · rintro ⟨hz, hh, hp⟩
      exact mem_trace_of_mem_reclaim env port_pairs _
        ((query_mem_reclaim_iff env port_pairs d).mpr ⟨hz, hh, hp⟩)
